import Mathlib

/-
Verification development for the solarplanets module (index.mjs).

The JavaScript source operates on IEEE doubles; this development embeds the
arithmetic over the real numbers, with the JavaScript builtins used by the
module (Math.floor, Math.ceil via the INT idiom, the remainder operator, and
Math.atan2) modelled explicitly.  Matrices are embedded exactly as the source
represents them: arrays of arrays, with out-of-range reads defaulting (the
source only ever reads in-range entries in the functions verified here).
-/

noncomputable section

namespace Solarplanets

/-- Constant MU_SUN_KM3PS2 from index.mjs. -/
def MU_SUN_KM3PS2 : ℝ := 1.327e11

/-- Embedding of INT from index.mjs:
`return f < 0 ? Math.floor(f + 1.0) : Math.floor(f);`. -/
def INT (f : ℝ) : ℝ := if f < 0 then ((⌊f + 1.0⌋ : ℤ) : ℝ) else ((⌊f⌋ : ℤ) : ℝ)

/-- Model of the JavaScript builtin truncation toward zero (used to model the
remainder operator `%`): the integer part of `x`, rounding toward zero. -/
def jsTrunc (x : ℝ) : ℝ := if x < 0 then ((⌈x⌉ : ℤ) : ℝ) else ((⌊x⌋ : ℤ) : ℝ)

/-- Model of the JavaScript remainder operator `a % b` on numbers:
`a - b * trunc(a / b)`, whose result carries the sign of the dividend. -/
def jsMod (a b : ℝ) : ℝ := a - b * jsTrunc (a / b)

/-- Embedding of posmod from index.mjs:
`const c = a % b; return c < 0 ? c + b : c;`. -/
def posmod (a b : ℝ) : ℝ :=
  let c := jsMod a b
  if c < 0 then c + b else c

/-- Embedding of getJ0FromDatevec from index.mjs (Eq. 5.48 of Curtis):
`367 * y - INT(7 * (y + INT((m + 9) / 12)) / 4) + INT(275 * m / 9) + d + 1721013.5`. -/
def getJ0FromDatevec (y m d : ℝ) : ℝ :=
  367 * y - INT (7 * (y + INT ((m + 9) / 12)) / 4) + INT (275 * m / 9) + d + 1721013.5

/-- Embedding of getCurrentElements from index.mjs: `Q0 + dQ * T0`. -/
def getCurrentElements (Q0 dQ T0 : ℝ) : ℝ := Q0 + dQ * T0

/-- Loop state of getEaFromMaE from index.mjs: the mutable locals
`E_rad`, `n`, `isConverged`, `isOverrun`. -/
structure EaState where
  E_rad : ℝ
  n : ℕ
  isConverged : Bool
  isOverrun : Bool

/-- One evaluation of the while loop of getEaFromMaE from index.mjs.  If the
loop guard `!isConverged && !isOverrun` fails the state is left unchanged;
otherwise the body runs:
`f = E - e*sin(E) - M; df = 1 - e*cos(E); r = f/df; n += 1;
isConverged = |r| < 1e-8; isOverrun = 1000 < n; if (!isConverged) E -= r;`. -/
def eaStep (M_rad e : ℝ) (s : EaState) : EaState :=
  if s.isConverged || s.isOverrun then s
  else
    let f := s.E_rad - e * Real.sin s.E_rad - M_rad
    let df := 1 - e * Real.cos s.E_rad
    let r := f / df
    let n := s.n + 1
    let isConverged : Bool := decide (|r| < 1e-8)
    let isOverrun : Bool := decide (1000 < n)
    EaState.mk (if isConverged then s.E_rad else s.E_rad - r) n isConverged isOverrun

/-- The loop state of getEaFromMaE after `k` guard evaluations, starting from
the initial guess `E_rad = M_rad < pi ? M_rad + 0.5 * e : M_rad - 0.5 * e`
with `n = 0` and both flags false. -/
def eaTrace (M_rad e : ℝ) : ℕ → EaState
  | 0 => EaState.mk (if M_rad < Real.pi then M_rad + 0.5 * e else M_rad - 0.5 * e) 0 false false
  | k + 1 => eaStep M_rad e (eaTrace M_rad e k)

/-- Embedding of getEaFromMaE from index.mjs: run the while loop to completion
and return the final `E_rad`.  1001 guard evaluations always suffice: the
counter `n` reaches `nMax + 1 = 1001` at the 1001st body at the latest, which
sets `isOverrun`, and an exited state is a fixed point of the loop
(theorems `eaTrace_exits` and `eaTrace_stable` below). -/
def getEaFromMaE (M_rad e : ℝ) : ℝ := (eaTrace M_rad e 1001).E_rad

/-- Model of the JavaScript builtin Math.atan2 over the reals: the
two-argument arctangent, selecting the quadrant from the signs of both
arguments (the signed-zero distinctions of IEEE arithmetic collapse). -/
def atan2 (y x : ℝ) : ℝ :=
  if 0 < x then Real.arctan (y / x)
  else if x < 0 then
    (if 0 ≤ y then Real.arctan (y / x) + Real.pi else Real.arctan (y / x) - Real.pi)
  else
    (if 0 < y then Real.pi / 2 else if y < 0 then -(Real.pi / 2) else 0)

/-- Embedding of getTaFromEaE from index.mjs:
`const ta_rad = 2.0 * Math.atan2(Math.tan(0.5 * E_rad) * Math.sqrt(1 + e), Math.sqrt(1 - e));
return posmod(ta_rad, 2 * Math.PI);`. -/
def getTaFromEaE (E_rad e : ℝ) : ℝ :=
  let ta_rad := 2.0 * atan2 (Real.tan (0.5 * E_rad) * Real.sqrt (1 + e)) (Real.sqrt (1 - e))
  posmod ta_rad (2 * Real.pi)

/-- Embedding of getRpqwFromHETht from index.mjs, with the defaulted
gravitational-parameter argument `mu_km3ps2 = MU_SUN_KM3PS2` made explicit:
`const c = h*h / (mu * (1 + e*cos(tht))); return [c*cos(tht), c*sin(tht), 0];`. -/
def getRpqwFromHETht (h_km2ps e tht_rad mu_km3ps2 : ℝ) : List ℝ :=
  let c := h_km2ps * h_km2ps / (mu_km3ps2 * (1 + e * Real.cos tht_rad))
  [c * Real.cos tht_rad, c * Real.sin tht_rad, 0]

/-- Euclidean norm of a 3-component vector stored as a list, used to state the
perifocal position-magnitude property. -/
def vecNorm (v : List ℝ) : ℝ :=
  Real.sqrt (v.getD 0 0 ^ 2 + v.getD 1 0 ^ 2 + v.getD 2 0 ^ 2)

/-- Embedding of getDotProd from index.mjs: the loop
`for (i = 0; i < lhs.length; i += 1) sum += lhs[i] * rhs[i];`. -/
def getDotProd (lhs rhs : List ℝ) : ℝ :=
  ((List.range lhs.length).map (fun i => lhs.getD i 0 * rhs.getD i 0)).sum

/-- Embedding of R1 from index.mjs, the frame transformation about the x axis:
`[[1, 0, 0], [0, c, s], [0, -s, c]]`. -/
def R1 (rad : ℝ) : List (List ℝ) :=
  let c := Real.cos rad
  let s := Real.sin rad
  [[1, 0, 0], [0, c, s], [0, -s, c]]

/-- Embedding of R3 from index.mjs, the frame transformation about the z axis:
`[[c, s, 0], [-s, c, 0], [0, 0, 1]]`. -/
def R3 (rad : ℝ) : List (List ℝ) :=
  let c := Real.cos rad
  let s := Real.sin rad
  [[c, s, 0], [-s, c, 0], [0, 0, 1]]

/-- Embedding of getMatMul from index.mjs: rows of the left factor and columns
of the right factor are extracted entry by entry, then combined with
getDotProd. -/
def getMatMul (lhs rhs : List (List ℝ)) : List (List ℝ) :=
  let r1 := [(lhs.getD 0 []).getD 0 0, (lhs.getD 0 []).getD 1 0, (lhs.getD 0 []).getD 2 0]
  let r2 := [(lhs.getD 1 []).getD 0 0, (lhs.getD 1 []).getD 1 0, (lhs.getD 1 []).getD 2 0]
  let r3 := [(lhs.getD 2 []).getD 0 0, (lhs.getD 2 []).getD 1 0, (lhs.getD 2 []).getD 2 0]
  let c1 := [(rhs.getD 0 []).getD 0 0, (rhs.getD 1 []).getD 0 0, (rhs.getD 2 []).getD 0 0]
  let c2 := [(rhs.getD 0 []).getD 1 0, (rhs.getD 1 []).getD 1 0, (rhs.getD 2 []).getD 1 0]
  let c3 := [(rhs.getD 0 []).getD 2 0, (rhs.getD 1 []).getD 2 0, (rhs.getD 2 []).getD 2 0]
  [[getDotProd r1 c1, getDotProd r1 c2, getDotProd r1 c3],
   [getDotProd r2 c1, getDotProd r2 c2, getDotProd r2 c3],
   [getDotProd r3 c1, getDotProd r3 c2, getDotProd r3 c3]]

/-- Embedding of getQeci2pqw from index.mjs:
`const R31 = getMatMul(R3(aop_rad), R1(inc_rad)); return getMatMul(R31, R3(raan_rad));`. -/
def getQeci2pqw (raan_rad inc_rad aop_rad : ℝ) : List (List ℝ) :=
  let R31 := getMatMul (R3 aop_rad) (R1 inc_rad)
  getMatMul R31 (R3 raan_rad)

/-- Embedding of transpose from index.mjs: `I = M.length; J = M[0].length;`
a J-by-I result with `Mt[j][i] = M[i][j]` (the source preinitialises the
result with zeros, which here is the default for out-of-range reads). -/
def transpose (M : List (List ℝ)) : List (List ℝ) :=
  (List.range (M.headD []).length).map
    (fun j => (List.range M.length).map (fun i => (M.getD i []).getD j 0))

/-- Embedding of getQpqw2eci from index.mjs:
`return transpose(getQeci2pqw(raan_rad, inc_rad, aop_rad));`. -/
def getQpqw2eci (raan_rad inc_rad aop_rad : ℝ) : List (List ℝ) :=
  transpose (getQeci2pqw raan_rad inc_rad aop_rad)

/-- An exited loop state (either flag set) is a fixed point of the loop body. -/
theorem eaStep_frozen (M_rad e : ℝ) (s : EaState)
    (h : s.isConverged = true ∨ s.isOverrun = true) : eaStep M_rad e s = s := by
  unfold eaStep
  rcases h with h | h <;> rw [h] <;> simp

/-- While the loop is still running, the counter `n` equals the number of body
executions so far. -/
theorem eaTrace_running_count (M_rad e : ℝ) (k : ℕ)
    (h : (eaTrace M_rad e k).isConverged = false ∧ (eaTrace M_rad e k).isOverrun = false) :
    (eaTrace M_rad e k).n = k := by
  induction k with
  | zero => rfl
  | succ k ih =>
    by_cases hs : (eaTrace M_rad e k).isConverged = true ∨ (eaTrace M_rad e k).isOverrun = true
    · have hfr : eaTrace M_rad e (k + 1) = eaTrace M_rad e k := eaStep_frozen M_rad e _ hs
      rw [hfr] at h
      rcases hs with hs | hs
      · rw [hs] at h; exact absurd h.1 (by simp)
      · rw [hs] at h; exact absurd h.2 (by simp)
    · rw [not_or, Bool.not_eq_true, Bool.not_eq_true] at hs
      show (eaStep M_rad e (eaTrace M_rad e k)).n = k + 1
      unfold eaStep
      rw [hs.1, hs.2]
      simp [ih hs]

/-- The loop of getEaFromMaE has always exited after 1001 guard evaluations:
the counter reaches 1001 at the latest, setting `isOverrun` since
`nMax = 1000 < 1001`. -/
theorem eaTrace_exits (M_rad e : ℝ) :
    (eaTrace M_rad e 1001).isConverged = true ∨ (eaTrace M_rad e 1001).isOverrun = true := by
  by_contra hc
  rw [not_or, Bool.not_eq_true, Bool.not_eq_true] at hc
  by_cases hs : (eaTrace M_rad e 1000).isConverged = true ∨ (eaTrace M_rad e 1000).isOverrun = true
  · have hfr : eaTrace M_rad e 1001 = eaTrace M_rad e 1000 := eaStep_frozen M_rad e _ hs
    rw [hfr] at hc
    rcases hs with hs | hs
    · rw [hs] at hc; exact absurd hc.1 (by simp)
    · rw [hs] at hc; exact absurd hc.2 (by simp)
  · rw [not_or, Bool.not_eq_true, Bool.not_eq_true] at hs
    have hn : (eaTrace M_rad e 1000).n = 1000 := eaTrace_running_count M_rad e 1000 hs
    have hov : (eaTrace M_rad e 1001).isOverrun = true := by
      show (eaStep M_rad e (eaTrace M_rad e 1000)).isOverrun = true
      unfold eaStep
      rw [hs.1, hs.2]
      simp [hn]
    rw [hov] at hc
    exact absurd hc.2 (by simp)

/-- Beyond 1001 guard evaluations the loop state no longer changes, so the
fuel value used in `getEaFromMaE` is adequate. -/
theorem eaTrace_stable (M_rad e : ℝ) (j : ℕ) :
    eaTrace M_rad e (1001 + j) = eaTrace M_rad e 1001 := by
  induction j with
  | zero => rfl
  | succ j ih =>
    show eaStep M_rad e (eaTrace M_rad e (1001 + j)) = eaTrace M_rad e 1001
    rw [ih]
    exact eaStep_frozen M_rad e _ (eaTrace_exits M_rad e)

/-- Claim C1 (code evaluated at the failing input): the INT helper of
index.mjs maps the negative integer -2 to -1, because the negative branch
computes `Math.floor(f + 1.0)`, which only agrees with truncation toward zero
on non-integers.  Truncation toward zero, as the claim and the surrounding
documentation require, would return -2. -/
theorem INT_neg_integer_not_truncation : INT (-2) = -1 ∧ INT (-2) ≠ -2 := by
  have h : INT (-2) = -1 := by
    unfold INT
    rw [if_pos (by norm_num)]
    norm_num
  exact ⟨h, by rw [h]; norm_num⟩

/-- Claim C5: posmod maps any real `a` and any positive modulus `b` into the
half-open interval from 0 (inclusive) to `b` (exclusive), negative `a`
included. -/
theorem posmod_mem_Ico (a b : ℝ) (hb : 0 < b) : 0 ≤ posmod a b ∧ posmod a b < b := by
  have hbne : b ≠ 0 := ne_of_gt hb
  have ha : b * (a / b) = a := by field_simp
  by_cases h : a / b < 0
  · have ht : jsTrunc (a / b) = ((⌈a / b⌉ : ℤ) : ℝ) := by
      unfold jsTrunc; rw [if_pos h]
    have hle : b * (a / b) ≤ b * ((⌈a / b⌉ : ℤ) : ℝ) :=
      mul_le_mul_of_nonneg_left (Int.le_ceil _) hb.le
    have hlt : b * ((⌈a / b⌉ : ℤ) : ℝ) < b * (a / b + 1) :=
      mul_lt_mul_of_pos_left (Int.ceil_lt_add_one _) hb
    simp only [posmod, jsMod, ht]
    split_ifs with hcc
    · constructor <;> nlinarith
    · constructor <;> nlinarith
  · have ht : jsTrunc (a / b) = ((⌊a / b⌋ : ℤ) : ℝ) := by
      unfold jsTrunc; rw [if_neg h]
    have hle : b * ((⌊a / b⌋ : ℤ) : ℝ) ≤ b * (a / b) :=
      mul_le_mul_of_nonneg_left (Int.floor_le _) hb.le
    have hlt : b * (a / b) < b * (((⌊a / b⌋ : ℤ) : ℝ) + 1) :=
      mul_lt_mul_of_pos_left (Int.lt_floor_add_one _) hb
    simp only [posmod, jsMod, ht]
    split_ifs with hcc
    · constructor <;> nlinarith
    · constructor <;> nlinarith

/-- Witness for claim C5 at the concrete input `a = -7`, `b = 3`. -/
theorem posmod_mem_Ico_witness :
    (0 : ℝ) < 3 ∧ (0 ≤ posmod (-7) 3 ∧ posmod (-7) 3 < 3) :=
  ⟨by norm_num, posmod_mem_Ico (-7) 3 (by norm_num)⟩

/-- Claim C7: getJ0FromDatevec reproduces the two reference Julian day
numbers exactly: 2453137.5 for 2004-05-12 and 2436115.5 for 1957-10-04. -/
theorem getJ0FromDatevec_test_values :
    getJ0FromDatevec 2004 5 12 = 2453137.5 ∧ getJ0FromDatevec 1957 10 4 = 2436115.5 := by
  constructor <;> (unfold getJ0FromDatevec INT; norm_num)

/-- Claim C8: linear element extrapolation commutes with any linear unit
conversion: scaling both the constant and the rate term by `k` scales the
extrapolated element by `k`, so converting AU to km before interpolation
equals interpolating in AU and converting afterward. -/
theorem getCurrentElements_scaling (k Q0 dQ T0 : ℝ) :
    getCurrentElements (k * Q0) (k * dQ) T0 = k * getCurrentElements Q0 dQ T0 := by
  unfold getCurrentElements; ring

/-- Claim C9: at every iteration of the Newton-Raphson loop of getEaFromMaE,
the denominator `1 - e * cos(E)` of the correction term is at least `1 - e`,
which is positive for eccentricities below 1, so the solver never divides by
zero. -/
theorem eaTrace_denominator_bound (M_rad e : ℝ) (k : ℕ) (h0 : 0 ≤ e) (h1 : e < 1) :
    1 - e ≤ 1 - e * Real.cos (eaTrace M_rad e k).E_rad ∧ 0 < 1 - e := by
  constructor
  · have hc : e * Real.cos (eaTrace M_rad e k).E_rad ≤ e * 1 :=
      mul_le_mul_of_nonneg_left (Real.cos_le_one _) h0
    linarith
  · linarith

/-- Witness for claim C9 at the concrete input `M = 0`, `e = 1/2`, third
iteration. -/
theorem eaTrace_denominator_bound_witness :
    0 ≤ (1 / 2 : ℝ) ∧ (1 / 2 : ℝ) < 1 ∧
      (1 - (1 / 2 : ℝ) ≤ 1 - (1 / 2 : ℝ) * Real.cos (eaTrace 0 (1 / 2) 3).E_rad ∧
        0 < 1 - (1 / 2 : ℝ)) :=
  ⟨by norm_num, by norm_num, eaTrace_denominator_bound 0 (1 / 2) 3 (by norm_num) (by norm_num)⟩

/-- Claim C4: getTaFromEaE computes exactly the two-argument-arctangent
closed form `posmod(2 * atan2(sqrt(1+e) * tan(E/2), sqrt(1-e)), 2*pi)`. -/
theorem getTaFromEaE_closed_form (E_rad e : ℝ) (_h0 : 0 ≤ e) (_h1 : e < 1) :
    getTaFromEaE E_rad e =
      posmod (2 * atan2 (Real.sqrt (1 + e) * Real.tan (E_rad / 2)) (Real.sqrt (1 - e)))
        (2 * Real.pi) := by
  simp only [getTaFromEaE]
  congr 1
  rw [show (0.5 : ℝ) * E_rad = E_rad / 2 by ring,
    mul_comm (Real.tan (E_rad / 2)) (Real.sqrt (1 + e))]
  norm_num

/-- Witness for claim C4 at the concrete input `E = 0`, `e = 0`. -/
theorem getTaFromEaE_closed_form_witness :
    0 ≤ (0 : ℝ) ∧ (0 : ℝ) < 1 ∧
      getTaFromEaE 0 0 =
        posmod (2 * atan2 (Real.sqrt (1 + 0) * Real.tan (0 / 2)) (Real.sqrt (1 - 0)))
          (2 * Real.pi) :=
  ⟨le_refl 0, by norm_num, getTaFromEaE_closed_form 0 0 (le_refl 0) (by norm_num)⟩

/-- Claim C6: the Euclidean norm of the perifocal position returned by
getRpqwFromHETht equals `(h^2/mu) / (1 + e*cos(nu))`, and its third component
is zero. -/
theorem getRpqwFromHETht_norm (h e nu mu : ℝ) (h0 : 0 ≤ e) (h1 : e < 1) (hmu : 0 < mu) :
    vecNorm (getRpqwFromHETht h e nu mu) = (h ^ 2 / mu) / (1 + e * Real.cos nu) ∧
      (getRpqwFromHETht h e nu mu).getD 2 0 = 0 := by
  have hcos : -1 ≤ Real.cos nu := Real.neg_one_le_cos nu
  have hd : 0 < 1 + e * Real.cos nu := by nlinarith
  constructor
  · have hv : vecNorm (getRpqwFromHETht h e nu mu) =
        Real.sqrt ((h * h / (mu * (1 + e * Real.cos nu)) * Real.cos nu) ^ 2 +
          (h * h / (mu * (1 + e * Real.cos nu)) * Real.sin nu) ^ 2 + 0 ^ 2) := rfl
    have hc : 0 ≤ h * h / (mu * (1 + e * Real.cos nu)) :=
      div_nonneg (mul_self_nonneg h) (by positivity)
    have hsq : (h * h / (mu * (1 + e * Real.cos nu)) * Real.cos nu) ^ 2 +
        (h * h / (mu * (1 + e * Real.cos nu)) * Real.sin nu) ^ 2 + 0 ^ 2 =
        (h * h / (mu * (1 + e * Real.cos nu))) ^ 2 := by
      linear_combination (h * h / (mu * (1 + e * Real.cos nu))) ^ 2 *
        Real.sin_sq_add_cos_sq nu
    rw [hv, hsq, Real.sqrt_sq hc]
    rw [div_div, eq_div_iff (by positivity)]
    field_simp
    ring
  · rfl

/-- Witness for claim C6 at the concrete input `h = 0`, `e = 0`, `nu = 0`,
`mu = 1`. -/
theorem getRpqwFromHETht_norm_witness :
    0 ≤ (0 : ℝ) ∧ (0 : ℝ) < 1 ∧ (0 : ℝ) < 1 ∧
      (vecNorm (getRpqwFromHETht 0 0 0 1) = ((0 : ℝ) ^ 2 / 1) / (1 + 0 * Real.cos 0) ∧
        (getRpqwFromHETht 0 0 0 1).getD 2 0 = 0) :=
  ⟨le_refl 0, by norm_num, by norm_num, getRpqwFromHETht_norm 0 0 0 1 (le_refl 0) (by norm_num) (by norm_num)⟩

/-- getDotProd on two explicit 3-component vectors. -/
theorem getDotProd_three (a b c d e f : ℝ) :
    getDotProd [a, b, c] [d, e, f] = a * d + b * e + c * f := by
  have h : getDotProd [a, b, c] [d, e, f] = a * d + (b * e + (c * f + 0)) := rfl
  rw [h]; ring

/-- getMatMul on two explicit 3-by-3 matrices, entry by entry. -/
theorem getMatMul_three (a11 a12 a13 a21 a22 a23 a31 a32 a33
    b11 b12 b13 b21 b22 b23 b31 b32 b33 : ℝ) :
    getMatMul [[a11, a12, a13], [a21, a22, a23], [a31, a32, a33]]
        [[b11, b12, b13], [b21, b22, b23], [b31, b32, b33]] =
      [[a11 * b11 + a12 * b21 + a13 * b31, a11 * b12 + a12 * b22 + a13 * b32,
          a11 * b13 + a12 * b23 + a13 * b33],
        [a21 * b11 + a22 * b21 + a23 * b31, a21 * b12 + a22 * b22 + a23 * b32,
          a21 * b13 + a22 * b23 + a23 * b33],
        [a31 * b11 + a32 * b21 + a33 * b31, a31 * b12 + a32 * b22 + a33 * b32,
          a31 * b13 + a32 * b23 + a33 * b33]] := by
  have h : getMatMul [[a11, a12, a13], [a21, a22, a23], [a31, a32, a33]]
      [[b11, b12, b13], [b21, b22, b23], [b31, b32, b33]] =
      [[getDotProd [a11, a12, a13] [b11, b21, b31], getDotProd [a11, a12, a13] [b12, b22, b32],
          getDotProd [a11, a12, a13] [b13, b23, b33]],
        [getDotProd [a21, a22, a23] [b11, b21, b31], getDotProd [a21, a22, a23] [b12, b22, b32],
          getDotProd [a21, a22, a23] [b13, b23, b33]],
        [getDotProd [a31, a32, a33] [b11, b21, b31], getDotProd [a31, a32, a33] [b12, b22, b32],
          getDotProd [a31, a32, a33] [b13, b23, b33]]] := rfl
  rw [h]
  simp only [getDotProd_three]

/-- transpose on an explicit 3-by-3 matrix. -/
theorem transpose_three (a b c d e f g h i : ℝ) :
    transpose [[a, b, c], [d, e, f], [g, h, i]] = [[a, d, g], [b, e, h], [c, f, i]] := rfl

/-- Claim C3: getQpqw2eci is the transpose of getQeci2pqw on the same angle
triple, and both matrix products (via getMatMul) give the exact 3-by-3
identity over real arithmetic. -/
theorem getQpqw2eci_transpose_and_inverse (raan_rad inc_rad aop_rad : ℝ) :
    getQpqw2eci raan_rad inc_rad aop_rad = transpose (getQeci2pqw raan_rad inc_rad aop_rad) ∧
      getMatMul (getQpqw2eci raan_rad inc_rad aop_rad) (getQeci2pqw raan_rad inc_rad aop_rad) =
        [[1, 0, 0], [0, 1, 0], [0, 0, 1]] ∧
      getMatMul (getQeci2pqw raan_rad inc_rad aop_rad) (getQpqw2eci raan_rad inc_rad aop_rad) =
        [[1, 0, 0], [0, 1, 0], [0, 0, 1]] := by
  have hO := Real.sin_sq_add_cos_sq raan_rad
  have hi := Real.sin_sq_add_cos_sq inc_rad
  have hw := Real.sin_sq_add_cos_sq aop_rad
  refine ⟨rfl, ?_, ?_⟩
  · simp only [getQpqw2eci, getQeci2pqw, R1, R3]
    simp only [getMatMul_three, transpose_three]
    simp only [List.cons.injEq, and_true, eq_self_iff_true]
    refine ⟨⟨?_, ?_, ?_⟩, ⟨?_, ?_, ?_⟩, ⟨?_, ?_, ?_⟩⟩
    · linear_combination (Real.cos raan_rad ^ 2 + Real.cos inc_rad ^ 2 * Real.sin raan_rad ^ 2) * hw +
        Real.sin raan_rad ^ 2 * hi + hO
    · linear_combination (Real.cos raan_rad * Real.sin raan_rad -
        Real.cos inc_rad ^ 2 * Real.cos raan_rad * Real.sin raan_rad) * hw -
        Real.cos raan_rad * Real.sin raan_rad * hi
    · linear_combination (-(Real.cos inc_rad * Real.sin inc_rad * Real.sin raan_rad)) * hw
    · linear_combination (Real.cos raan_rad * Real.sin raan_rad -
        Real.cos inc_rad ^ 2 * Real.cos raan_rad * Real.sin raan_rad) * hw -
        Real.cos raan_rad * Real.sin raan_rad * hi
    · linear_combination (Real.sin raan_rad ^ 2 + Real.cos inc_rad ^ 2 * Real.cos raan_rad ^ 2) * hw +
        Real.cos raan_rad ^ 2 * hi + hO
    · linear_combination (Real.cos inc_rad * Real.sin inc_rad * Real.cos raan_rad) * hw
    · linear_combination (-(Real.cos inc_rad * Real.sin inc_rad * Real.sin raan_rad)) * hw
    · linear_combination (Real.cos inc_rad * Real.sin inc_rad * Real.cos raan_rad) * hw
    · linear_combination Real.sin inc_rad ^ 2 * hw + hi
  · simp only [getQpqw2eci, getQeci2pqw, R1, R3]
    simp only [getMatMul_three, transpose_three]
    simp only [List.cons.injEq, and_true, eq_self_iff_true]
    refine ⟨⟨?_, ?_, ?_⟩, ⟨?_, ?_, ?_⟩, ⟨?_, ?_, ?_⟩⟩
    · linear_combination (Real.cos aop_rad ^ 2 + Real.sin aop_rad ^ 2 * Real.cos inc_rad ^ 2) * hO +
        Real.sin aop_rad ^ 2 * hi + hw
    · linear_combination (Real.cos aop_rad * Real.sin aop_rad * Real.cos inc_rad ^ 2 -
        Real.cos aop_rad * Real.sin aop_rad) * hO + Real.cos aop_rad * Real.sin aop_rad * hi
    · linear_combination (-(Real.sin aop_rad * Real.cos inc_rad * Real.sin inc_rad)) * hO
    · linear_combination (Real.cos aop_rad * Real.sin aop_rad * Real.cos inc_rad ^ 2 -
        Real.cos aop_rad * Real.sin aop_rad) * hO + Real.cos aop_rad * Real.sin aop_rad * hi
    · linear_combination (Real.sin aop_rad ^ 2 + Real.cos aop_rad ^ 2 * Real.cos inc_rad ^ 2) * hO +
        Real.cos aop_rad ^ 2 * hi + hw
    · linear_combination (-(Real.cos aop_rad * Real.cos inc_rad * Real.sin inc_rad)) * hO
    · linear_combination (-(Real.sin aop_rad * Real.cos inc_rad * Real.sin inc_rad)) * hO
    · linear_combination (-(Real.cos aop_rad * Real.cos inc_rad * Real.sin inc_rad)) * hO
    · linear_combination Real.sin inc_rad ^ 2 * hO + hi

/-- Reading every position of a list in order with a default reproduces the
list. -/
theorem range_map_getD {α : Type} (l : List α) (d : α) :
    (List.range l.length).map (fun i => l.getD i d) = l := by
  induction l with
  | nil => rfl
  | cons a t ih =>
    rw [List.length_cons, List.range_succ_eq_map, List.map_cons, List.map_map]
    have hfun : ∀ i ∈ List.range t.length,
        ((fun i => (a :: t).getD i d) ∘ Nat.succ) i = t.getD i d := fun i _ => rfl
    rw [List.map_congr_left hfun, ih]
    rfl

/-- The defaulted head of a map over a nonempty range is the image of zero. -/
theorem headD_map_range {α : Type} (f : ℕ → α) (n : ℕ) (hn : n ≠ 0) (d : α) :
    ((List.range n).map f).headD d = f 0 := by
  obtain ⟨m, rfl⟩ := Nat.exists_eq_succ_of_ne_zero hn
  rw [List.range_succ_eq_map, List.map_cons, List.headD_cons]

/-- The transposed matrix has one row per column of the input. -/
theorem transpose_length (M : List (List ℝ)) :
    (transpose M).length = (M.headD []).length := by
  simp [transpose]

/-- Row `j` of the transposed matrix collects the `j`-th entry of every row of
the input. -/
theorem transpose_getD (M : List (List ℝ)) (j : ℕ) (hj : j < (M.headD []).length) :
    (transpose M).getD j [] = (List.range M.length).map (fun i => (M.getD i []).getD j 0) := by
  unfold transpose
  rw [List.getD_eq_getElem _ _ (by simpa using hj)]
  simp

/-- Claim C10: transpose is an involution on non-empty rectangular matrices
with non-empty rows (not necessarily square). -/
theorem transpose_transpose (M : List (List ℝ)) (hM : M ≠ [])
    (hJ : (M.headD []).length ≠ 0)
    (hrect : ∀ row ∈ M, row.length = (M.headD []).length) :
    transpose (transpose M) = M := by
  have hMlen : M.length ≠ 0 := fun h => hM (List.length_eq_zero.mp h)
  have hhead : (transpose M).headD [] =
      (List.range M.length).map (fun i => (M.getD i []).getD 0 0) := by
    unfold transpose
    exact headD_map_range _ _ hJ _
  have hheadlen : ((transpose M).headD []).length = M.length := by
    rw [hhead, List.length_map, List.length_range]
  have htlen : (transpose M).length = (M.headD []).length := transpose_length M
  have hrow : ∀ i : ℕ, i < M.length → (M.getD i []).length = (M.headD []).length := by
    intro i hi
    have hmem : M.getD i [] ∈ M := by
      rw [List.getD_eq_getElem _ _ hi]
      exact List.getElem_mem hi
    exact hrect _ hmem
  -- transpose (transpose M) unfolds over the lengths computed above
  have hTT : transpose (transpose M) =
      (List.range M.length).map
        (fun i => (List.range (M.headD []).length).map
          (fun j => ((transpose M).getD j []).getD i 0)) := by
    conv_lhs => rw [transpose]
    rw [hheadlen, htlen]
  rw [hTT]
  have hinner : ∀ i : ℕ, i < M.length →
      (List.range (M.headD []).length).map (fun j => ((transpose M).getD j []).getD i 0) =
        M.getD i [] := by
    intro i hi
    have hmap : ∀ j ∈ List.range (M.headD []).length,
        ((transpose M).getD j []).getD i 0 = (M.getD i []).getD j 0 := by
      intro j hj
      rw [List.mem_range] at hj
      rw [transpose_getD M j hj]
      rw [List.getD_eq_getElem _ _ (by simpa using hi)]
      simp
    rw [List.map_congr_left hmap]
    calc (List.range (M.headD []).length).map (fun j => (M.getD i []).getD j 0)
        = (List.range (M.getD i []).length).map (fun j => (M.getD i []).getD j 0) := by
          rw [hrow i hi]
      _ = M.getD i [] := range_map_getD _ _
  rw [List.map_congr_left (fun i hi => hinner i (List.mem_range.mp hi))]
  exact range_map_getD M []

/-- Witness for claim C10 at the concrete 3-by-2 matrix [[1,2],[3,4],[5,6]]. -/
theorem transpose_transpose_witness :
    ([[1, 2], [3, 4], [5, 6]] : List (List ℝ)) ≠ [] ∧
      (([[1, 2], [3, 4], [5, 6]] : List (List ℝ)).headD []).length ≠ 0 ∧
      (∀ row ∈ ([[1, 2], [3, 4], [5, 6]] : List (List ℝ)),
        row.length = (([[1, 2], [3, 4], [5, 6]] : List (List ℝ)).headD []).length) ∧
      transpose (transpose ([[1, 2], [3, 4], [5, 6]] : List (List ℝ))) =
        [[1, 2], [3, 4], [5, 6]] := by
  have h1 : ([[1, 2], [3, 4], [5, 6]] : List (List ℝ)) ≠ [] := by simp
  have h2 : (([[1, 2], [3, 4], [5, 6]] : List (List ℝ)).headD []).length ≠ 0 := by simp
  have h3 : ∀ row ∈ ([[1, 2], [3, 4], [5, 6]] : List (List ℝ)),
      row.length = (([[1, 2], [3, 4], [5, 6]] : List (List ℝ)).headD []).length := by
    intro row hrow
    fin_cases hrow <;> rfl
  exact ⟨h1, h2, h3, transpose_transpose _ h1 h2 h3⟩

end Solarplanets
